import Mathlib

/-!
# Verification of the serving-path core of the manga aggregation API

Shallow embedding of the response cache, rate limiter, performance
telemetry and real-time stream of the repository.  The route handlers in
`src/src/router.js` are embedded directly from the source; the helper
modules (`helper/cache_service`, `middleware/rate_limiter`,
`middleware/performance`, `services/dashboard_service`) are not present in
the source tree, so their operations are modelled from the specification
(each such definition is marked `Modelled from the spec:`).
-/

namespace KomikApi

/-- A handler response: HTTP status plus serialized body. -/
structure Resp where
  status : Nat
  body : String
deriving Repr, DecidableEq

/-- A stored response counts as a success (and hence is cacheable) when its
status is in the 2xx range. -/
def isSuccess (r : Resp) : Bool := 200 ≤ r.status && r.status < 300

/-! ## Cache key construction (C5)

Modelled from the spec: `helper/cache_service` is absent from the source
tree; the spec states the key is "deterministic from method + path + query
parameters sorted by name". -/

/-- Order on query parameters: lexicographic on (name, value), i.e. sorted
by name with value as tie-break. -/
def qle (p q : String × String) : Prop := toLex p ≤ toLex q

instance : DecidableRel qle := fun p q =>
  inferInstanceAs (Decidable (toLex p ≤ toLex q))

instance : IsTotal (String × String) qle :=
  ⟨fun a b => le_total (toLex a) (toLex b)⟩

instance : IsTrans (String × String) qle :=
  ⟨fun _ _ _ h h2 => le_trans h h2⟩

instance : IsAntisymm (String × String) qle :=
  ⟨fun _ _ h h2 => toLex.injective (le_antisymm h h2)⟩

/-- Modelled from the spec: the missing `cache_service` sorts the query
parameters by name before fingerprinting. -/
def sortParams (query : List (String × String)) : List (String × String) :=
  List.insertionSort qle query

/-- Modelled from the spec: the missing `cache_service` builds the cache
key deterministically from method + path + query parameters sorted by
name. -/
def generateKey (method path : String) (query : List (String × String)) : String :=
  method ++ ":" ++ path ++ ":" ++
    String.intercalate "&" ((sortParams query).map fun p => p.1 ++ "=" ++ p.2)

theorem sortParams_perm_eq {q1 q2 : List (String × String)} (h : q1.Perm q2) :
    sortParams q1 = sortParams q2 :=
  List.eq_of_perm_of_sorted
    (((List.perm_insertionSort qle q1).trans h).trans
      (List.perm_insertionSort qle q2).symm)
    (List.sorted_insertionSort qle q1)
    (List.sorted_insertionSort qle q2)

/-- C5: the cache key is a deterministic function of method, path and the
query parameters sorted by name: two requests whose query parameter lists
differ only in order resolve to the same cache key. -/
theorem cache_key_order_independent (method path : String)
    {q1 q2 : List (String × String)} (h : q1.Perm q2) :
    generateKey method path q1 = generateKey method path q2 := by
  unfold generateKey
  rw [sortParams_perm_eq h]

/-- Witness for C5: the spec's concrete pair
/terbaru?sortBy=rating&page=1 and /terbaru?page=1&sortBy=rating share one
cache key. -/
theorem cache_key_order_independent_witness :
    generateKey "GET" "/terbaru" [("sortBy", "rating"), ("page", "1")] =
      generateKey "GET" "/terbaru" [("page", "1"), ("sortBy", "rating")] :=
  cache_key_order_independent "GET" "/terbaru" (by decide)

/-! ## Cache store and pattern invalidation (C7) -/

/-- A cache entry as in the spec's data model: stored value, creation and
expiry instants, and hit counter. -/
structure CacheEntry where
  value : Resp
  createdAt : Nat
  expiresAt : Nat
  hitCount : Nat
deriving Repr, DecidableEq

/-- The cache store: an association list from fingerprint keys to
entries. -/
abbrev Store := List (String × CacheEntry)

/-- Glob-style wildcard matching of a pattern against a key, where `*`
matches any (possibly empty) sequence of characters.  Modelled from the
spec: pattern invalidation in the missing `cache_service` "uses glob-style
wildcard matching against keys". -/
def globMatch : List Char → List Char → Bool
  | [], [] => true
  | [], _ :: _ => false
  | p :: ps, [] => if p = '*' then globMatch ps [] else false
  | p :: ps, c :: cs =>
      if p = '*' then globMatch ps (c :: cs) || globMatch (p :: ps) cs
      else p = c && globMatch ps cs
termination_by pat s => (pat.length, s.length)

/-- Whether a cache key matches a glob pattern. -/
def keyMatches (pat key : String) : Bool := globMatch pat.data key.data

/-- Modelled from the spec: `invalidatePattern(glob)` of the missing
`cache_service` removes the entries whose keys match the glob and returns
the removed count. -/
def invalidatePattern (pat : String) : Store → Nat × Store
  | [] => (0, [])
  | e :: rest =>
      let r := invalidatePattern pat rest
      if keyMatches pat e.1 then (r.1 + 1, r.2) else (r.1, e :: r.2)

theorem invalidatePattern_store_eq (pat : String) (s : Store) :
    (invalidatePattern pat s).2 = s.filter (fun e => !keyMatches pat e.1) := by
  induction s with
  | nil => rfl
  | cons e rest ih =>
      simp only [invalidatePattern, List.filter_cons]
      cases h : keyMatches pat e.1 <;> simp [h, ih]

theorem invalidatePattern_count_eq (pat : String) (s : Store) :
    (invalidatePattern pat s).1 = s.countP (fun e => keyMatches pat e.1) := by
  induction s with
  | nil => rfl
  | cons e rest ih =>
      simp only [invalidatePattern, List.countP_cons]
      cases h : keyMatches pat e.1 <;> simp [h, ih]

/-- C7: pattern invalidation removes exactly the entries whose keys match
the glob — an entry survives iff it was present and does not match — the
non-matching entries are left unchanged (the result is the original store
filtered to the non-matching entries, in order), and the returned count
equals the number of entries removed. -/
theorem invalidatePattern_exact (pat : String) (s : Store) :
    (∀ e, e ∈ (invalidatePattern pat s).2 ↔ e ∈ s ∧ keyMatches pat e.1 = false) ∧
    (invalidatePattern pat s).2 = s.filter (fun e => !keyMatches pat e.1) ∧
    (invalidatePattern pat s).1 + (invalidatePattern pat s).2.length = s.length := by
  refine ⟨?_, invalidatePattern_store_eq pat s, ?_⟩
  · intro e
    rw [invalidatePattern_store_eq, List.mem_filter]
    simp
  · rw [invalidatePattern_store_eq, invalidatePattern_count_eq]
    induction s with
    | nil => rfl
    | cons e rest ih =>
        simp only [List.countP_cons, List.filter_cons]
        cases h : keyMatches pat e.1 <;> simp [h] <;> omega

/-! ## Cache middleware: miss populates, hit short-circuits (C3)

Modelled from the spec: `cache_service.middleware` is absent from the
source tree.  The spec: on hit, write the cached status/body directly,
tag as served-from-cache, skip the handler; on miss, invoke the handler,
store the result with the route TTL if it indicates success, deliver it;
an entry with `now >= expiresAt` is treated as absent and removed. -/

/-- Look a key up in the store. -/
def getEntry (key : String) : Store → Option CacheEntry
  | [] => none
  | e :: rest => if e.1 = key then some e.2 else getEntry key rest

/-- Remove a key from the store. -/
def removeEntry (key : String) (s : Store) : Store :=
  s.filter (fun e => !(e.1 = key : Bool))

/-- Insert or replace an entry for a key. -/
def setEntry (key : String) (entry : CacheEntry) (s : Store) : Store :=
  (key, entry) :: removeEntry key s

/-- Increment the hit counter of a key, leaving value and expiry alone. -/
def bumpHit (key : String) (s : Store) : Store :=
  s.map (fun e =>
    if e.1 = key then (e.1, { e.2 with hitCount := e.2.hitCount + 1 }) else e)

/-- The state the cache middleware acts on: the shared store plus a
counter of underlying-handler invocations. -/
structure CacheState where
  store : Store
  handlerCalls : Nat
deriving Repr, DecidableEq

/-- Result of one GET through the cache middleware: the delivered
response, whether it was served from cache, and the successor state. -/
structure GetResult where
  resp : Resp
  fromCache : Bool
  state : CacheState
deriving Repr, DecidableEq

/-- Modelled from the spec: the miss path of the missing
`cache_service.middleware` — invoke the handler, store the response with
the route TTL only if it indicates success, deliver it. -/
def missPath (handler : Resp) (ttl : Nat) (key : String) (now : Nat)
    (s : CacheState) : GetResult :=
  let s1 : CacheState := { s with handlerCalls := s.handlerCalls + 1 }
  if isSuccess handler then
    { resp := handler, fromCache := false,
      state := { s1 with
        store := setEntry key
          { value := handler, createdAt := now, expiresAt := now + ttl,
            hitCount := 0 } s1.store } }
  else
    { resp := handler, fromCache := false, state := s1 }

/-- Modelled from the spec: one GET through the missing
`cache_service.middleware`.  A live entry is served from cache with its
hit counter bumped and the handler skipped; an expired entry is treated
as absent and removed; otherwise the miss path runs. -/
def handleGet (handler : Resp) (ttl : Nat) (key : String) (now : Nat)
    (s : CacheState) : GetResult :=
  match getEntry key s.store with
  | some e =>
      if now < e.expiresAt then
        { resp := e.value, fromCache := true,
          state := { s with store := bumpHit key s.store } }
      else
        missPath handler ttl key now { s with store := removeEntry key s.store }
  | none => missPath handler ttl key now s

/-- Process a sequence of GETs for one key at the given instants,
collecting (response, served-from-cache) pairs. -/
def processGets (handler : Resp) (ttl : Nat) (key : String) :
    List Nat → CacheState → List (Resp × Bool) × CacheState
  | [], s => ([], s)
  | t :: ts, s =>
      let r := handleGet handler ttl key t s
      let rest := processGets handler ttl key ts r.state
      ((r.resp, r.fromCache) :: rest.1, rest.2)

theorem getEntry_setEntry_self (key : String) (entry : CacheEntry) (s : Store) :
    getEntry key (setEntry key entry s) = some entry := by
  simp [setEntry, getEntry]

theorem getEntry_bumpHit (key : String) (s : Store) :
    getEntry key (bumpHit key s) =
      (getEntry key s).map (fun e => { e with hitCount := e.hitCount + 1 }) := by
  induction s with
  | nil => rfl
  | cons e rest ih =>
      by_cases h : e.1 = key
      · simp [bumpHit, getEntry, h]
      · simp only [bumpHit, List.map_cons, getEntry] at ih ⊢
        simp [h, ih, bumpHit]

/-- While a live entry for the key holds the handler response, every GET
within its expiry is answered from the cache with that response and the
handler is never invoked. -/
theorem processGets_hits (handler : Resp) (ttl : Nat) (key : String)
    (ts : List Nat) (s : CacheState) (v : CacheEntry)
    (hget : getEntry key s.store = some v) (hv : v.value = handler)
    (hexp : ∀ t ∈ ts, t < v.expiresAt) :
    (processGets handler ttl key ts s).1 = ts.map (fun _ => (handler, true)) ∧
    (processGets handler ttl key ts s).2.handlerCalls = s.handlerCalls := by
  induction ts generalizing s v with
  | nil => exact ⟨rfl, rfl⟩
  | cons t ts ih =>
      have ht : t < v.expiresAt := hexp t (List.mem_cons_self t ts)
      have hstep : handleGet handler ttl key t s =
          { resp := v.value, fromCache := true,
            state := { s with store := bumpHit key s.store } } := by
        simp [handleGet, hget, ht]
      have hget2 : getEntry key (bumpHit key s.store) =
          some { v with hitCount := v.hitCount + 1 } := by
        rw [getEntry_bumpHit, hget]; rfl
      have ih2 := ih { s with store := bumpHit key s.store }
        { v with hitCount := v.hitCount + 1 } hget2 hv
        (fun t ht2 => hexp t (List.mem_cons_of_mem _ ht2))
      simp only [processGets, hstep, hv]
      exact ⟨by simp [ih2.1], by simp [ih2.2]⟩

/-- C3: starting from a state where a cacheable key is absent, a first
GET at `t0` runs the handler (a miss) and stores its successful response;
every repeated GET at an instant strictly within the TTL returns a
payload identical to the first miss response and is served from the cache
(the handler is skipped), so across all these requests the handler is
invoked exactly once. -/
theorem cache_ttl_hit_once (handler : Resp) (ttl : Nat) (key : String)
    (t0 : Nat) (ts : List Nat) (s0 : CacheState)
    (habs : getEntry key s0.store = none)
    (hsucc : isSuccess handler = true)
    (hts : ∀ t ∈ ts, t < t0 + ttl) :
    (processGets handler ttl key (t0 :: ts) s0).1 =
      (handler, false) :: ts.map (fun _ => (handler, true)) ∧
    (processGets handler ttl key (t0 :: ts) s0).2.handlerCalls =
      s0.handlerCalls + 1 := by
  have hstep : handleGet handler ttl key t0 s0 =
      ⟨handler, false,
        ⟨setEntry key ⟨handler, t0, t0 + ttl, 0⟩ s0.store,
          s0.handlerCalls + 1⟩⟩ := by
    simp [handleGet, habs, missPath, hsucc]
  have hrest := processGets_hits handler ttl key ts
    ⟨setEntry key ⟨handler, t0, t0 + ttl, 0⟩ s0.store, s0.handlerCalls + 1⟩
    ⟨handler, t0, t0 + ttl, 0⟩
    (getEntry_setEntry_self _ _ _) rfl hts
  simp only [processGets, hstep]
  exact ⟨by simp [hrest.1], by simp [hrest.2]⟩

/-- Witness for C3: a concrete run — miss at 1000, hits at 2000 and 3000,
all inside a 300000 ms TTL, one handler call. -/
theorem cache_ttl_hit_once_witness :
    (processGets ⟨200, "ok"⟩ 300000 "GET:/terbaru:" (1000 :: [2000, 3000])
        ⟨[], 0⟩).1 =
      (⟨200, "ok"⟩, false) :: [2000, 3000].map (fun _ => (⟨200, "ok"⟩, true)) ∧
    (processGets ⟨200, "ok"⟩ 300000 "GET:/terbaru:" (1000 :: [2000, 3000])
        ⟨[], 0⟩).2.handlerCalls = 0 + 1 :=
  cache_ttl_hit_once ⟨200, "ok"⟩ 300000 "GET:/terbaru:" 1000 [2000, 3000]
    ⟨[], 0⟩ rfl (by decide) (by decide)

/-! ## Stampede coalescing (C1)

Modelled from the spec: the in-flight-fetch registry keyed by fingerprint
lives in the missing `cache_service`.  Concurrent requests interleave on
the single-threaded event loop, so we model the interleaving as a linear
trace of events against one fingerprint: an arrival of a request, and the
completion of the one in-flight handler invocation. -/

/-- An event in the interleaved execution on one cache key. -/
inductive CoEvent where
  | arrive (id : Nat)
  | complete
deriving Repr, DecidableEq

/-- State of one cache key under the in-flight-fetch registry: the stored
result, whether a handler invocation is in flight, the requests awaiting
it, how often the handler was invoked, and the responses delivered. -/
structure CoState where
  cached : Option Resp
  inflight : Bool
  waiters : List Nat
  handlerCalls : Nat
  responses : List (Nat × Resp)
deriving Repr, DecidableEq

/-- Initial state: nothing cached, nothing in flight. -/
def coInit : CoState :=
  { cached := none, inflight := false, waiters := [], handlerCalls := 0,
    responses := [] }

/-- Modelled from the spec: one step of the missing in-flight-fetch
registry.  An arriving request is answered from cache if possible; on a
miss it awaits the in-flight fetch if one exists, else it registers the
fetch and invokes the handler.  Completion stores the handler result and
answers every waiter with it. -/
def coStep (handler : Resp) : CoEvent → CoState → CoState
  | .arrive i, s =>
      match s.cached with
      | some v => { s with responses := s.responses ++ [(i, v)] }
      | none =>
          if s.inflight then { s with waiters := s.waiters ++ [i] }
          else
            { s with
                inflight := true, waiters := [i],
                handlerCalls := s.handlerCalls + 1 }
  | .complete, s =>
      if s.inflight then
        { s with
            cached := some handler, inflight := false, waiters := [],
            responses := s.responses ++ s.waiters.map (fun i => (i, handler)) }
      else s

/-- Run a trace of events. -/
def coRun (handler : Resp) : List CoEvent → CoState → CoState
  | [], s => s
  | e :: es, s => coRun handler es (coStep handler e s)

theorem coRun_append (handler : Resp) (xs ys : List CoEvent) (s : CoState) :
    coRun handler (xs ++ ys) s = coRun handler ys (coRun handler xs s) := by
  induction xs generalizing s with
  | nil => rfl
  | cons e es ih =>
      simp only [List.cons_append, coRun]
      exact ih _

theorem coRun_arrivals_wait (handler : Resp) (rest : List Nat) (w : List Nat)
    (hc : Nat) (rs : List (Nat × Resp)) :
    coRun handler (rest.map CoEvent.arrive)
        { cached := none, inflight := true, waiters := w, handlerCalls := hc,
          responses := rs } =
      { cached := none, inflight := true, waiters := w ++ rest,
        handlerCalls := hc, responses := rs } := by
  induction rest generalizing w with
  | nil => simp [coRun]
  | cons i is ih =>
      have hstep : coStep handler (CoEvent.arrive i) ⟨none, true, w, hc, rs⟩ =
          ⟨none, true, w ++ [i], hc, rs⟩ := by
        simp [coStep]
      simp only [List.map_cons, coRun, hstep]
      rw [ih (w ++ [i])]
      simp

/-- C1: if N requests (N ≥ 1) all miss on the same key before the first
miss's result is stored — a trace of N arrivals on an empty key followed
by the completion of the in-flight fetch — then the handler is invoked
exactly once and each of the N requests receives the same response, the
handler's result, which is also stored. -/
theorem coalesce_single_flight (handler : Resp) (ids : List Nat)
    (hne : ids ≠ []) :
    (coRun handler (ids.map CoEvent.arrive ++ [CoEvent.complete])
        coInit).handlerCalls = 1 ∧
    (coRun handler (ids.map CoEvent.arrive ++ [CoEvent.complete])
        coInit).responses = ids.map (fun i => (i, handler)) ∧
    (coRun handler (ids.map CoEvent.arrive ++ [CoEvent.complete])
        coInit).cached = some handler := by
  match ids, hne with
  | i0 :: rest, _ =>
      rw [coRun_append]
      have h0 : coStep handler (CoEvent.arrive i0) coInit =
          ⟨none, true, [i0], 1, []⟩ := by
        simp [coStep, coInit]
      have h1 : coRun handler ((i0 :: rest).map CoEvent.arrive) coInit =
          ⟨none, true, i0 :: rest, 1, []⟩ := by
        simp only [List.map_cons, coRun, h0]
        rw [coRun_arrivals_wait]
        simp
      rw [h1]
      simp [coRun, coStep]

/-- Witness for C1: three concurrent misses on one key — one handler
invocation, three identical responses. -/
theorem coalesce_single_flight_witness :
    (coRun ⟨200, "ok"⟩ ([1, 2, 3].map CoEvent.arrive ++ [CoEvent.complete])
        coInit).handlerCalls = 1 ∧
    (coRun ⟨200, "ok"⟩ ([1, 2, 3].map CoEvent.arrive ++ [CoEvent.complete])
        coInit).responses = [1, 2, 3].map (fun i => (i, ⟨200, "ok"⟩)) ∧
    (coRun ⟨200, "ok"⟩ ([1, 2, 3].map CoEvent.arrive ++ [CoEvent.complete])
        coInit).cached = some ⟨200, "ok"⟩ :=
  coalesce_single_flight ⟨200, "ok"⟩ [1, 2, 3] (by decide)

/-! ## Sliding-window rate limiter (C4)

Modelled from the spec: `middleware/rate_limiter` is absent from the
source tree.  The spec: prune timestamps older than `now - windowMs`; if
the remaining count reaches `maxRequests`, reject with `retryAfter` equal
to the time until the oldest retained timestamp falls out of the window;
otherwise record `now` and admit. -/

/-- Outcome of one admission check. -/
inductive RLResult where
  | admitted
  | rejected (retryAfter : Nat)
deriving Repr, DecidableEq

/-- Modelled from the spec: keep only the timestamps still inside the
sliding window at `now` (a timestamp falls out of the window once
`windowMs` has elapsed from it). -/
def pruneWindow (windowMs now : Nat) (w : List Nat) : List Nat :=
  w.filter (fun t => now < t + windowMs)

/-- Oldest timestamp of a window (0 for an empty window). -/
def oldestTs : List Nat → Nat
  | [] => 0
  | t :: ts => ts.foldl Nat.min t

/-- Modelled from the spec: one sliding-window admission check of the
missing `rate_limiter` — prune, reject with the retry-after hint when the
retained count has reached the limit, otherwise record `now` and admit. -/
def rateLimitCheck (windowMs maxRequests now : Nat) (w : List Nat) :
    RLResult × List Nat :=
  let pruned := pruneWindow windowMs now w
  if maxRequests ≤ pruned.length then
    (RLResult.rejected (oldestTs pruned + windowMs - now), pruned)
  else
    (RLResult.admitted, pruned ++ [now])

/-- Run a client's requests at the given instants through the limiter,
collecting the per-request outcomes. -/
def rateLimitRun (windowMs maxRequests : Nat) :
    List Nat → List Nat → List RLResult × List Nat
  | [], w => ([], w)
  | t :: ts, w =>
      let r := rateLimitCheck windowMs maxRequests t w
      let rest := rateLimitRun windowMs maxRequests ts r.2
      (r.1 :: rest.1, rest.2)

theorem pruneWindow_all_kept (windowMs now : Nat) (w : List Nat)
    (h : ∀ t ∈ w, now < t + windowMs) : pruneWindow windowMs now w = w :=
  List.filter_eq_self.mpr (fun t ht => decide_eq_true (h t ht))

/-- C4: with windowMs = 60000 and maxRequests = 5, five requests from one
client at nondecreasing instants t1 ≤ … ≤ t5 are all admitted; a sixth at
t6 still inside the window of the earliest request is rejected with
retryAfter = t1 + 60000 − t6, the time until the oldest retained
timestamp (t1) falls out of the window, which is positive; and a request
at any t7 at least 60000 ms after t1 is admitted again. -/
theorem rate_limit_window_scenario (t1 t2 t3 t4 t5 t6 t7 : Nat)
    (h12 : t1 ≤ t2) (h23 : t2 ≤ t3) (h34 : t3 ≤ t4) (h45 : t4 ≤ t5)
    (h56 : t5 ≤ t6) (h6 : t6 < t1 + 60000) (h7 : t1 + 60000 ≤ t7) :
    (rateLimitRun 60000 5 [t1, t2, t3, t4, t5, t6, t7] []).1 =
      [RLResult.admitted, RLResult.admitted, RLResult.admitted,
        RLResult.admitted, RLResult.admitted,
        RLResult.rejected (t1 + 60000 - t6), RLResult.admitted] ∧
    0 < t1 + 60000 - t6 := by
  have k1 : rateLimitCheck 60000 5 t1 [] = (RLResult.admitted, [t1]) := by
    simp [rateLimitCheck, pruneWindow]
  have k2 : rateLimitCheck 60000 5 t2 [t1] = (RLResult.admitted, [t1, t2]) := by
    have hp : pruneWindow 60000 t2 [t1] = [t1] :=
      pruneWindow_all_kept _ _ _ (by intro t ht; simp at ht; omega)
    simp [rateLimitCheck, hp]
  have k3 : rateLimitCheck 60000 5 t3 [t1, t2] =
      (RLResult.admitted, [t1, t2, t3]) := by
    have hp : pruneWindow 60000 t3 [t1, t2] = [t1, t2] :=
      pruneWindow_all_kept _ _ _ (by intro t ht; simp at ht; rcases ht with h | h <;> omega)
    simp [rateLimitCheck, hp]
  have k4 : rateLimitCheck 60000 5 t4 [t1, t2, t3] =
      (RLResult.admitted, [t1, t2, t3, t4]) := by
    have hp : pruneWindow 60000 t4 [t1, t2, t3] = [t1, t2, t3] :=
      pruneWindow_all_kept _ _ _ (by
        intro t ht; simp at ht; rcases ht with h | h | h <;> omega)
    simp [rateLimitCheck, hp]
  have k5 : rateLimitCheck 60000 5 t5 [t1, t2, t3, t4] =
      (RLResult.admitted, [t1, t2, t3, t4, t5]) := by
    have hp : pruneWindow 60000 t5 [t1, t2, t3, t4] = [t1, t2, t3, t4] :=
      pruneWindow_all_kept _ _ _ (by
        intro t ht; simp at ht; rcases ht with h | h | h | h <;> omega)
    simp [rateLimitCheck, hp]
  have k6 : rateLimitCheck 60000 5 t6 [t1, t2, t3, t4, t5] =
      (RLResult.rejected (t1 + 60000 - t6), [t1, t2, t3, t4, t5]) := by
    have hp : pruneWindow 60000 t6 [t1, t2, t3, t4, t5] = [t1, t2, t3, t4, t5] :=
      pruneWindow_all_kept _ _ _ (by
        intro t ht; simp at ht; rcases ht with h | h | h | h | h <;> omega)
    have hold : oldestTs [t1, t2, t3, t4, t5] = t1 := by
      simp [oldestTs]
      omega
    simp [rateLimitCheck, hp, hold]
  have k7 : (rateLimitCheck 60000 5 t7 [t1, t2, t3, t4, t5]).1 =
      RLResult.admitted := by
    have hlen : (pruneWindow 60000 t7 [t1, t2, t3, t4, t5]).length < 5 := by
      have h1 : pruneWindow 60000 t7 [t1, t2, t3, t4, t5] =
          pruneWindow 60000 t7 [t2, t3, t4, t5] := by
        simp only [pruneWindow, List.filter_cons]
        have : ¬ (t7 < t1 + 60000) := by omega
        simp [this]
      rw [h1]
      have h2 : (pruneWindow 60000 t7 [t2, t3, t4, t5]).length ≤ 4 :=
        List.length_filter_le _ _
      omega
    simp only [rateLimitCheck]
    rw [if_neg (by omega)]
  refine ⟨?_, by omega⟩
  simp only [rateLimitRun, k1, k2, k3, k4, k5, k6]
  simp [k7]

/-- Witness for C4: the concrete run 0,1,2,3,4,5 then 60000 — five
admissions, a rejection with retryAfter 59995, then an admission. -/
theorem rate_limit_window_scenario_witness :
    (rateLimitRun 60000 5 [0, 1, 2, 3, 4, 5, 60000] []).1 =
      [RLResult.admitted, RLResult.admitted, RLResult.admitted,
        RLResult.admitted, RLResult.admitted,
        RLResult.rejected (0 + 60000 - 5), RLResult.admitted] ∧
    0 < 0 + 60000 - 5 :=
  rate_limit_window_scenario 0 1 2 3 4 5 60000
    (by decide) (by decide) (by decide) (by decide) (by decide)
    (by decide) (by decide)

/-! ## Performance snapshot rates (C6)

Modelled from the spec: `middleware/performance` is absent from the
source tree.  The spec: errorRate = errors/total in the rolling window as
a percentage; cacheHitRate = hits/(hits+misses) in the window as a
percentage. -/

/-- The cache outcome recorded with a sample. -/
inductive CacheOutcome where
  | hit
  | miss
  | bypass
deriving Repr, DecidableEq, BEq

/-- One metric sample of the rolling window. -/
structure MetricSample where
  timestamp : Nat
  durationMs : Nat
  statusCode : Nat
  outcome : CacheOutcome
deriving Repr, DecidableEq

/-- A sample counts as an error when its status code is 4xx/5xx. -/
def isErrorSample (s : MetricSample) : Bool := 400 ≤ s.statusCode

/-- Modelled from the spec: errorRate of the snapshot — errors over total
in the rolling window, as a percentage. -/
def errorRate (w : List MetricSample) : ℚ :=
  if w.length = 0 then 0
  else (w.countP isErrorSample : ℚ) / (w.length : ℚ) * 100

/-- Modelled from the spec: cacheHitRate of the snapshot — hits over
hits + misses in the rolling window, as a percentage. -/
def cacheHitRate (w : List MetricSample) : ℚ :=
  let hits := w.countP (fun s => s.outcome == CacheOutcome.hit)
  let misses := w.countP (fun s => s.outcome == CacheOutcome.miss)
  if hits + misses = 0 then 0
  else (hits : ℚ) / ((hits : ℚ) + (misses : ℚ)) * 100

/-- C6: for any recorded window of 10 samples of which exactly 2 are
errors and exactly 3 are cache hits, the other outcomes being misses (7
of them), the snapshot reports errorRate = 20 % and cacheHitRate = 30 %
exactly. -/
theorem snapshot_rates_exact (w : List MetricSample)
    (hlen : w.length = 10)
    (herr : w.countP isErrorSample = 2)
    (hhit : w.countP (fun s => s.outcome == CacheOutcome.hit) = 3)
    (hmiss : w.countP (fun s => s.outcome == CacheOutcome.miss) = 7) :
    errorRate w = 20 ∧ cacheHitRate w = 30 := by
  constructor
  · rw [errorRate, if_neg (by omega)]
    rw [herr, hlen]
    norm_num
  · rw [cacheHitRate]
    simp only [hhit, hmiss]
    norm_num

/-- Witness for C6: a concrete scripted window of 10 samples — 2 errors
(status 500), 3 hits, 7 misses. -/
theorem snapshot_rates_exact_witness :
    errorRate
      [⟨1, 10, 200, CacheOutcome.hit⟩, ⟨2, 10, 200, CacheOutcome.hit⟩,
        ⟨3, 10, 200, CacheOutcome.hit⟩, ⟨4, 10, 500, CacheOutcome.miss⟩,
        ⟨5, 10, 500, CacheOutcome.miss⟩, ⟨6, 10, 200, CacheOutcome.miss⟩,
        ⟨7, 10, 200, CacheOutcome.miss⟩, ⟨8, 10, 200, CacheOutcome.miss⟩,
        ⟨9, 10, 200, CacheOutcome.miss⟩, ⟨10, 10, 200, CacheOutcome.miss⟩] = 20 ∧
    cacheHitRate
      [⟨1, 10, 200, CacheOutcome.hit⟩, ⟨2, 10, 200, CacheOutcome.hit⟩,
        ⟨3, 10, 200, CacheOutcome.hit⟩, ⟨4, 10, 500, CacheOutcome.miss⟩,
        ⟨5, 10, 500, CacheOutcome.miss⟩, ⟨6, 10, 200, CacheOutcome.miss⟩,
        ⟨7, 10, 200, CacheOutcome.miss⟩, ⟨8, 10, 200, CacheOutcome.miss⟩,
        ⟨9, 10, 200, CacheOutcome.miss⟩, ⟨10, 10, 200, CacheOutcome.miss⟩] = 30 :=
  snapshot_rates_exact _ (by decide) (by decide) (by decide) (by decide)

/-! ## Cache-warming endpoint (C2)

Embedded from `src/src/router.js`, handler of
POST /api/dashboard/cache/manage/warm: if `req.body.keys` is not a
non-empty array the handler answers 400; otherwise it answers 200
"success" with the message "Cache warming requested for N keys" and never
touches the cache. -/

/-- Shape of the warm endpoint's answer: HTTP status, the response label
(success or error), the message, and the echoed key count. -/
structure WarmResult where
  status : Nat
  label : String
  message : String
  keysCount : Nat
deriving Repr, DecidableEq

/-- Embedded from `src/src/router.js`: the POST
/api/dashboard/cache/manage/warm handler.  `keys` is `none` when the body
carries no array.  The cache store passes through untouched — the source
comments that actual warming is a placeholder and just returns success. -/
def warmHandler (keys : Option (List String)) (cache : Store) :
    WarmResult × Store :=
  match keys with
  | none => (⟨400, "error", "Keys array is required", 0⟩, cache)
  | some ks =>
      if ks.length = 0 then (⟨400, "error", "Keys array is required", 0⟩, cache)
      else
        (⟨200, "success",
          "Cache warming requested for " ++ toString ks.length ++ " keys",
          ks.length⟩, cache)

/-- C2 (code bug): on a non-empty keys array the warm handler
acknowledges success — status 200, label "success", a message that is a
mere acknowledgment and not a "not implemented" report — while the cache
is returned unchanged and the requested key is still absent from it.
This contradicts the claim that success is never acknowledged while the
keys stay unpopulated. -/
theorem warm_false_acknowledgment :
    (warmHandler (some ["GET:/terbaru:"]) []).1.status = 200 ∧
    (warmHandler (some ["GET:/terbaru:"]) []).1.label = "success" ∧
    (warmHandler (some ["GET:/terbaru:"]) []).1.message =
      "Cache warming requested for 1 keys" ∧
    (warmHandler (some ["GET:/terbaru:"]) []).2 = [] ∧
    getEntry "GET:/terbaru:" (warmHandler (some ["GET:/terbaru:"]) []).2 =
      none := by
  refine ⟨rfl, rfl, ?_, rfl, rfl⟩
  rfl

/-! ## Real-time stream: timer teardown and error recovery (C8, C9)

Embedded from `src/src/router.js`, handler of GET /api/dashboard/realtime:
an initial connected event is written, then an interval timer writes a
metrics event every 2.5 s, or an error event if composing the snapshot
throws; `req.on('close')` clears the interval and ends the response. -/

/-- One event written to the stream, matching the three JSON payload
shapes of the source. -/
inductive StreamEvent (M : Type) where
  | connected (timestamp : Nat)
  | metrics (m : M)
  | error (message : String)
deriving Repr, DecidableEq

/-- State of one stream connection: whether the response is still open,
whether the per-connection interval timer is still scheduled, and the
events written so far. -/
structure SSEConn (M : Type) where
  isOpen : Bool
  timerActive : Bool
  events : List (StreamEvent M)
deriving Repr, DecidableEq

/-- What can happen to a connection: a scheduling tick of the interval
timer, carrying the outcome of `dashboardService.getRealtimeMetrics()`
on that tick, or the transport close. -/
inductive SSEAction (M : Type) where
  | tick (result : Except String M)
  | close
deriving Repr

/-- Embedded from `src/src/router.js`: the connection is opened with the
connected event already written, interval scheduled. -/
def sseInit (M : Type) (t : Nat) : SSEConn M :=
  ⟨true, true, [StreamEvent.connected t]⟩

/-- Embedded from `src/src/router.js`: one step of the realtime handler.
A tick fires only while the interval is scheduled; it writes a metrics
event, or an error event when the snapshot threw (the catch branch), and
leaves the connection open either way.  Close clears the interval
(`clearInterval`) and ends the response (`res.end()`). -/
def sseStep {M : Type} : SSEAction M → SSEConn M → SSEConn M
  | .tick r, c =>
      if c.timerActive then
        match r with
        | .ok m => { c with events := c.events ++ [StreamEvent.metrics m] }
        | .error msg => { c with events := c.events ++ [StreamEvent.error msg] }
      else c
  | .close, c => { c with timerActive := false, isOpen := false }

/-- Run a sequence of actions on a connection. -/
def sseRun {M : Type} : List (SSEAction M) → SSEConn M → SSEConn M
  | [], c => c
  | a :: as, c => sseRun as (sseStep a c)

/-- C8: detecting the transport close cancels the per-connection interval
timer deterministically, and from then on any sequence of scheduling
ticks leaves the connection state — in particular the list of written
events — completely unchanged: no further push attempts occur. -/
theorem close_cancels_push {M : Type} (c : SSEConn M)
    (acts : List (SSEAction M)) (hticks : ∀ a ∈ acts, a ≠ SSEAction.close) :
    (sseStep SSEAction.close c).timerActive = false ∧
    sseRun acts (sseStep SSEAction.close c) = sseStep SSEAction.close c := by
  refine ⟨rfl, ?_⟩
  have hgen : ∀ (l : List (SSEAction M)) (d : SSEConn M),
      d.timerActive = false → (∀ a ∈ l, a ≠ SSEAction.close) →
      sseRun l d = d := by
    intro l
    induction l with
    | nil => intro d _ _; rfl
    | cons a as ih =>
        intro d hd hl
        match a with
        | .tick r =>
            have hstep : sseStep (SSEAction.tick r) d = d := by
              simp [sseStep, hd]
            rw [sseRun, hstep]
            exact ih d hd (fun b hb => hl b (List.mem_cons_of_mem _ hb))
        | .close =>
            exact absurd rfl (hl SSEAction.close (List.mem_cons_self _ _))
  exact hgen acts _ rfl hticks

/-- Witness for C8: a concrete closed connection ignores two further
ticks. -/
theorem close_cancels_push_witness :
    (sseStep SSEAction.close (sseInit Nat 0)).timerActive = false ∧
    sseRun [SSEAction.tick (Except.ok 7), SSEAction.tick (Except.error "boom")]
        (sseStep SSEAction.close (sseInit Nat 0)) =
      sseStep SSEAction.close (sseInit Nat 0) :=
  close_cancels_push (sseInit Nat 0)
    [SSEAction.tick (Except.ok 7), SSEAction.tick (Except.error "boom")]
    (by
      intro a ha
      simp only [List.mem_cons, List.not_mem_nil, or_false] at ha
      rcases ha with rfl | rfl <;> exact fun h => nomatch h)

/-- C9: when composing the snapshot fails on a tick, an error event with
that message is written on the same connection instead of a metrics
event, the connection stays open with the timer still scheduled, and a
subsequent successful tick emits its metrics event as usual. -/
theorem stream_error_recovers {M : Type} (c : SSEConn M) (msg : String)
    (m : M) (hopen : c.isOpen = true) (htimer : c.timerActive = true) :
    (sseStep (SSEAction.tick (Except.error msg)) c).events =
      c.events ++ [StreamEvent.error msg] ∧
    (sseStep (SSEAction.tick (Except.error msg)) c).isOpen = true ∧
    (sseStep (SSEAction.tick (Except.error msg)) c).timerActive = true ∧
    (sseStep (SSEAction.tick (Except.ok m))
        (sseStep (SSEAction.tick (Except.error msg)) c)).events =
      (sseStep (SSEAction.tick (Except.error msg)) c).events ++
        [StreamEvent.metrics m] := by
  have h1 : sseStep (SSEAction.tick (Except.error msg)) c =
      { c with events := c.events ++ [StreamEvent.error msg] } := by
    simp [sseStep, htimer]
  refine ⟨by rw [h1], by rw [h1]; exact hopen, by rw [h1]; exact htimer, ?_⟩
  rw [h1]
  simp [sseStep, htimer]

/-- Witness for C9: a failed tick then a successful one on a fresh
connection. -/
theorem stream_error_recovers_witness :
    (sseStep (SSEAction.tick (Except.error "boom")) (sseInit Nat 0)).events =
      (sseInit Nat 0).events ++ [StreamEvent.error "boom"] ∧
    (sseStep (SSEAction.tick (Except.error "boom")) (sseInit Nat 0)).isOpen =
      true ∧
    (sseStep (SSEAction.tick (Except.error "boom"))
        (sseInit Nat 0)).timerActive = true ∧
    (sseStep (SSEAction.tick (Except.ok 7))
        (sseStep (SSEAction.tick (Except.error "boom")) (sseInit Nat 0))).events =
      (sseStep (SSEAction.tick (Except.error "boom")) (sseInit Nat 0)).events ++
        [StreamEvent.metrics 7] :=
  stream_error_recovers (sseInit Nat 0) "boom" 7 rfl rfl

/-! ## Route table and middleware pipeline (C10)

Embedded from `src/src/router.js`: which middleware each GET route is
registered with.  `/health` (and the root route) are registered with no
rate limiter and no cache middleware; every content route passes through
a rate limiter tier and `cacheService.middleware(ttl)`. -/

/-- The two limiter tiers exported by the missing rate_limiter module and
used in the source. -/
inductive Tier where
  | dflt
  | strict
deriving Repr, DecidableEq

/-- A middleware as registered on a route in the source. -/
inductive Middleware where
  | rateLimit (tier : Tier)
  | cacheMw (ttlMs : Nat)
  | validator (name : String)
deriving Repr, DecidableEq

/-- Embedded from `src/src/router.js`: the GET route table with each
route's registered middleware chain, TTLs in milliseconds as in the
source (15 min = 900000, 10 min = 600000, 5 min = 300000,
2 min = 120000). -/
def routeTable : List (String × List Middleware) :=
  [("/", []),
    ("/health", []),
    ("/providers", [Middleware.rateLimit Tier.dflt, Middleware.cacheMw 900000]),
    ("/provider", [Middleware.rateLimit Tier.dflt, Middleware.cacheMw 900000]),
    ("/provider/:id",
      [Middleware.rateLimit Tier.dflt, Middleware.cacheMw 900000]),
    ("/terbaru",
      [Middleware.rateLimit Tier.dflt, Middleware.cacheMw 300000,
        Middleware.validator "page", Middleware.validator "sort"]),
    ("/genre", [Middleware.rateLimit Tier.dflt, Middleware.cacheMw 900000]),
    ("/genre/:url",
      [Middleware.rateLimit Tier.dflt, Middleware.cacheMw 300000,
        Middleware.validator "page"]),
    ("/detail/:url",
      [Middleware.rateLimit Tier.dflt, Middleware.cacheMw 600000]),
    ("/read/:url",
      [Middleware.rateLimit Tier.dflt, Middleware.cacheMw 900000]),
    ("/search",
      [Middleware.rateLimit Tier.strict, Middleware.cacheMw 120000,
        Middleware.validator "keyword", Middleware.validator "sort"]),
    ("/popular",
      [Middleware.rateLimit Tier.dflt, Middleware.cacheMw 600000,
        Middleware.validator "sort"]),
    ("/recommended",
      [Middleware.rateLimit Tier.dflt, Middleware.cacheMw 600000,
        Middleware.validator "sort"]),
    ("/api/dashboard/stats",
      [Middleware.rateLimit Tier.dflt, Middleware.cacheMw 300000]),
    ("/api/dashboard/analytics",
      [Middleware.rateLimit Tier.dflt, Middleware.cacheMw 120000]),
    ("/api/dashboard/realtime", [Middleware.rateLimit Tier.dflt])]

/-- Look up the middleware chain registered for a path. -/
def findRoute (path : String) : Option (List Middleware) :=
  (routeTable.find? (fun r => r.1 == path)).map Prod.snd

/-- How a request can leave the middleware pipeline. -/
inductive RouteOutcome where
  | rateLimited (retryAfter : Nat)
  | servedFromCache (r : Resp)
  | freshHandler
deriving Repr, DecidableEq

/-- Run a middleware chain.  `rlDecision` abstracts the current state of
the per-client window (some retryAfter when the limiter would reject),
`cacheLookup` abstracts the current content of the cache (some response
when the fingerprint has a live entry).  A request that clears every
middleware reaches the route handler and is composed freshly. -/
def runPipeline (rlDecision : Tier → Option Nat)
    (cacheLookup : Nat → Option Resp) : List Middleware → RouteOutcome
  | [] => RouteOutcome.freshHandler
  | Middleware.rateLimit tier :: rest =>
      match rlDecision tier with
      | some retry => RouteOutcome.rateLimited retry
      | none => runPipeline rlDecision cacheLookup rest
  | Middleware.cacheMw ttl :: rest =>
      match cacheLookup ttl with
      | some r => RouteOutcome.servedFromCache r
      | none => runPipeline rlDecision cacheLookup rest
  | Middleware.validator _ :: rest => runPipeline rlDecision cacheLookup rest

/-- C10: GET /health bypasses both the rate limiter and the cache —
whatever the state of the client's rate-limit window and of the cache,
the request is never rejected with a rate-limit signal and never served
from cache but always reaches the handler for a fresh composition;
whereas /providers is registered behind both a rate limiter and the cache
middleware, and with a rejecting limiter state a /providers request is
rate limited. -/
theorem health_bypasses_pipeline :
    (∀ (rlDecision : Tier → Option Nat) (cacheLookup : Nat → Option Resp),
      (findRoute "/health").map (runPipeline rlDecision cacheLookup) =
        some RouteOutcome.freshHandler) ∧
    (∃ mws, findRoute "/providers" = some mws ∧
      (∃ t, Middleware.rateLimit t ∈ mws) ∧ (∃ ttl, Middleware.cacheMw ttl ∈ mws)) ∧
    (∀ retry r,
      (findRoute "/providers").map
          (runPipeline (fun _ => some retry) (fun _ => some r)) =
        some (RouteOutcome.rateLimited retry)) := by
  refine ⟨fun rlDecision cacheLookup => rfl, ?_, fun retry r => rfl⟩
  exact ⟨[Middleware.rateLimit Tier.dflt, Middleware.cacheMw 900000], rfl,
    ⟨Tier.dflt, by simp⟩, ⟨900000, by simp⟩⟩

end KomikApi
